import Mathlib

/-!
Verification development for the gitpulse reactive controller
(internal/ui/model.go, internal/git/git.go).

The Go controller is shallowly embedded: RepoStatus records, the Bubble Tea
Model, the key handlers of Model.Update, and the completion-message handlers
become pure Lean functions.  Asynchronous commands (tea.Cmd) become explicit
Task values returned beside the new model.  A Go slice-index expression that
can panic is modelled by returning none from an Option-valued handler.
Go's sort.Slice is modelled by a stable insertion sort over the same
comparator.
-/

namespace GitPulse

/-- RepoConfig from internal/config/config.go. -/
structure RepoConfig where
  Path : String
  Name : String
  deriving Repr, DecidableEq, Inhabited

/-- RepoStatus from internal/git/git.go.  Go's `error` field is modelled as
an optional message string; `nil` becomes `none`. -/
structure RepoStatus where
  Path : String := ""
  Name : String := ""
  Branch : String := ""
  Upstream : String := ""
  Ahead : Nat := 0
  Behind : Nat := 0
  Dirty : Bool := false
  HasUpstream : Bool := false
  Error : Option String := none
  Fetching : Bool := false
  Rebasing : Bool := false
  Pushing : Bool := false
  LastMessage : String := ""
  CommitSubject : String := ""
  CommitAge : String := ""
  CommitTime : Int := 0
  deriving Repr, DecidableEq, Inhabited

/-- RepoStatus.IsSynced from git.go. -/
def RepoStatus.IsSynced (s : RepoStatus) : Bool :=
  s.HasUpstream && s.Ahead == 0 && s.Behind == 0 && s.Error.isNone

/-- RepoStatus.NeedsPush from git.go. -/
def RepoStatus.NeedsPush (s : RepoStatus) : Bool :=
  s.HasUpstream && decide (0 < s.Ahead) && s.Error.isNone

/-- RepoStatus.NeedsPull from git.go. -/
def RepoStatus.NeedsPull (s : RepoStatus) : Bool :=
  s.HasUpstream && decide (0 < s.Behind) && s.Error.isNone

/-- statusPriority from model.go: sort priority of a repo status when the
display is grouped; lower values appear first. -/
def statusPriority (s : RepoStatus) : Nat :=
  if s.Error.isSome then 0
  else if s.NeedsPull then 1
  else if s.NeedsPush then 2
  else if s.IsSynced then 3
  else 4

/-- Reading of `m.statuses[i]` at an index known to be in bounds (the default
record is never produced on the in-bounds paths the theorems use). -/
def nthStatus (statuses : List RepoStatus) (i : Nat) : RepoStatus :=
  statuses.getD i default

/-- The ordering used by the sort.Slice comparator in Model.displayOrder:
priority first, name as tie-break.  This is the non-strict version of the Go
less-function `pa < pb, ties by name`. -/
def displayLe (statuses : List RepoStatus) (a b : Nat) : Prop :=
  statusPriority (nthStatus statuses a) < statusPriority (nthStatus statuses b) ∨
    (statusPriority (nthStatus statuses a) = statusPriority (nthStatus statuses b) ∧
      (nthStatus statuses a).Name ≤ (nthStatus statuses b).Name)

instance (statuses : List RepoStatus) : DecidableRel (displayLe statuses) := fun _ _ =>
  inferInstanceAs (Decidable (_ ∨ _))

instance (statuses : List RepoStatus) : IsTotal Nat (displayLe statuses) where
  total a b := by
    unfold displayLe
    rcases Nat.lt_trichotomy (statusPriority (nthStatus statuses a))
        (statusPriority (nthStatus statuses b)) with h | h | h
    · exact Or.inl (Or.inl h)
    · rcases le_total (nthStatus statuses a).Name (nthStatus statuses b).Name with hn | hn
      · exact Or.inl (Or.inr ⟨h, hn⟩)
      · exact Or.inr (Or.inr ⟨h.symm, hn⟩)
    · exact Or.inr (Or.inl h)

instance (statuses : List RepoStatus) : IsTrans Nat (displayLe statuses) where
  trans a b c hab hbc := by
    unfold displayLe at *
    rcases hab with hab | ⟨hab, hab'⟩
    · rcases hbc with hbc | ⟨hbc, _⟩
      · exact Or.inl (hab.trans hbc)
      · exact Or.inl (hbc ▸ hab)
    · rcases hbc with hbc | ⟨hbc, hbc'⟩
      · exact Or.inl (hab ▸ hbc)
      · exact Or.inr ⟨hab.trans hbc, hab'.trans hbc'⟩

/-- Model.displayOrder from model.go: indices in display order.  Identity
order when not grouped; sorted by `statusPriority` then name when grouped. -/
def displayOrder (statuses : List RepoStatus) (grouped : Bool) : List Nat :=
  let indices := List.range statuses.length
  if grouped then List.insertionSort (displayLe statuses) indices else indices

/-- Remote from git.go. -/
structure Remote where
  Name : String
  URL : String
  deriving Repr, DecidableEq, Inhabited

/-- RemoteBranch from git.go. -/
structure RemoteBranch where
  Remote : String
  Branch : String
  deriving Repr, DecidableEq, Inhabited

/-- UpstreamOption from model.go. -/
structure UpstreamOption where
  Remote : String
  Branch : String
  Exists : Bool
  deriving Repr, DecidableEq, Inhabited

/-- ModalType from model.go. -/
inductive ModalType where
  | ModalNone
  | ModalSetUpstream
  | ModalAddRemote
  deriving Repr, DecidableEq, Inhabited

/-- The controller state of ui.Model (model.go).  The spinner, window size
and the add-remote text input are cosmetic and omitted; everything the event
routing reads or writes is kept. -/
structure Model where
  repos : List RepoConfig := []
  statuses : List RepoStatus := []
  cursor : Nat := 0
  fetchingAll : Bool := false
  grouped : Bool := true
  modalType : ModalType := ModalType.ModalNone
  modalRepoIndex : Nat := 0
  modalOptions : List UpstreamOption := []
  modalCursor : Nat := 0
  modalAfterSetup : Bool := false
  deriving Repr, DecidableEq, Inhabited

/-- The asynchronous commands (tea.Cmd) a handler can return, identified by
the scheduler method that builds them. -/
inductive Task where
  | fetchTask (index : Nat)
  | syncTask (index : Nat)
  | pushTask (index : Nat)
  | refreshTask (index : Nat)
  | loadRemotesTask (index : Nat)
  | setUpstreamTask (index : Nat) (remote branch : String)
  | pushWithUpstreamTask (index : Nat) (remote branch : String)
  | addRemoteTask (index : Nat) (remote url : String)
  | fetchThenShowUpstreamTask (index : Nat)
  | blinkTask
  deriving Repr, DecidableEq

/-- Model.selectedIndex from model.go: `m.displayOrder()[m.cursor]`.
The Go expression panics when the cursor is out of bounds; the panic is
modelled by `none`. -/
def selectedIndex (m : Model) : Option Nat :=
  (displayOrder m.statuses m.grouped).get? m.cursor

/-- Model.showUpstreamModal from model.go: records the target repository and
whether to resume a sync after setup, then launches remote discovery. -/
def showUpstreamModal (m : Model) (index : Nat) (afterSetup : Bool) : Model × List Task :=
  ({ m with modalRepoIndex := index, modalAfterSetup := afterSetup, modalCursor := 0 },
   [Task.loadRemotesTask index])

/-- Model.Update, key "f" (fetch single repo).  `none` models a Go panic on
an out-of-bounds slice index. -/
def handleKeyF (m : Model) : Option (Model × List Task) :=
  match selectedIndex m with
  | none => none
  | some idx =>
    match m.statuses.get? idx with
    | none => none
    | some status =>
      if status.Fetching then some (m, [])
      else if !status.HasUpstream && status.Error.isNone then
        some (showUpstreamModal m idx false)
      else
        some ({ m with statuses :=
                  m.statuses.set idx { status with Fetching := true, LastMessage := "" } },
              [Task.fetchTask idx])

/-- Model.Update, key "s" (sync single repo). -/
def handleKeyS (m : Model) : Option (Model × List Task) :=
  match selectedIndex m with
  | none => none
  | some idx =>
    match m.statuses.get? idx with
    | none => none
    | some status =>
      if status.Fetching || status.Rebasing then some (m, [])
      else if !status.HasUpstream && status.Error.isNone then
        some (showUpstreamModal m idx true)
      else
        some ({ m with statuses :=
                  m.statuses.set idx { status with Fetching := true, LastMessage := "" } },
              [Task.syncTask idx])

/-- Model.Update, key "p" (push single repo). -/
def handleKeyP (m : Model) : Option (Model × List Task) :=
  match selectedIndex m with
  | none => none
  | some idx =>
    match m.statuses.get? idx with
    | none => none
    | some status =>
      if status.Pushing then some (m, [])
      else if !status.HasUpstream && status.Error.isNone then
        some (showUpstreamModal m idx false)
      else if status.NeedsPush then
        some ({ m with statuses :=
                  m.statuses.set idx { status with Pushing := true, LastMessage := "" } },
              [Task.pushTask idx])
      else some (m, [])

/-- Model.Update, key "u" (set upstream for current repo). -/
def handleKeyU (m : Model) : Option (Model × List Task) :=
  match selectedIndex m with
  | none => none
  | some idx =>
    match m.statuses.get? idx with
    | none => none
    | some status =>
      if !status.HasUpstream && status.Error.isNone then
        some (showUpstreamModal m idx false)
      else some (m, [])

/-- ListRemoteBranches from git.go, on the parsed view of `git branch -r`:
keeps the branches whose name exactly matches `branchName`, or all of them
when `branchName` is empty. -/
def listRemoteBranches (allBranches : List RemoteBranch) (branchName : String) :
    List RemoteBranch :=
  allBranches.filter (fun rb => branchName == "" || rb.Branch == branchName)

/-- The option-list construction of the remotesLoadedMsg case in
Model.Update: every loaded branch becomes an `Exists := true` option; only
when there are none does each remote become a push-to-create suggestion. -/
def buildUpstreamOptions (branch : String) (remotes : List Remote)
    (branches : List RemoteBranch) : List UpstreamOption :=
  let options := branches.map (fun rb =>
    { Remote := rb.Remote, Branch := rb.Branch, Exists := true })
  if options.isEmpty then
    remotes.map (fun r => { Remote := r.Name, Branch := branch, Exists := false })
  else options

/-- Model.Update, case remotesLoadedMsg.  The Go code clears
`m.statuses[msg.index].Fetching` without a bounds check, so an out-of-bounds
index panics (`none`). -/
def handleRemotesLoaded (m : Model) (index : Nat) (remotes : List Remote)
    (branches : List RemoteBranch) : Option (Model × List Task) :=
  match m.statuses.get? index with
  | none => none
  | some s =>
    let m1 := { m with statuses := m.statuses.set index { s with Fetching := false } }
    if remotes.isEmpty then
      some ({ m1 with modalType := ModalType.ModalAddRemote, modalRepoIndex := index },
            [Task.blinkTask])
    else
      let branch := (nthStatus m1.statuses index).Branch
      some ({ m1 with modalType := ModalType.ModalSetUpstream,
                      modalOptions := buildUpstreamOptions branch remotes branches,
                      modalCursor := 0 }, [])

/-- Model.Update, case statusUpdatedMsg: replace the record with the freshly
retrieved one, carrying over the operation flags and the last message. -/
def handleStatusUpdated (m : Model) (index : Nat) (status : RepoStatus) :
    Model × List Task :=
  match m.statuses.get? index with
  | none => (m, [])
  | some old =>
    let s1 : RepoStatus :=
      { status with Fetching := old.Fetching, Rebasing := old.Rebasing,
                    Pushing := old.Pushing, LastMessage := old.LastMessage }
    ({ m with statuses := m.statuses.set index s1 }, [])

/-- Model.Update, case fetchCompleteMsg.  The store mutation is guarded by
`msg.index < len(m.statuses)`, but the trailing
`m.refreshStatus(msg.index, m.repos[msg.index])` indexes the repo list
unconditionally, which panics (`none`) out of bounds. -/
def handleFetchComplete (m : Model) (index : Nat) (err : Option String) :
    Option (Model × List Task) :=
  let m1 :=
    match m.statuses.get? index with
    | none => m
    | some s =>
      let s1 : RepoStatus :=
        { s with Fetching := false,
                 LastMessage := match err with
                   | some e => "fetch failed: " ++ e
                   | none => s.LastMessage }
      { m with statuses := m.statuses.set index s1 }
  let allDone := m1.statuses.all (fun s => !s.Fetching)
  let m2 := if allDone then { m1 with fetchingAll := false } else m1
  match m2.repos.get? index with
  | none => none
  | some _ => some (m2, [Task.refreshTask index])

/-- Model.Update, case pullCompleteMsg; same unguarded trailing refresh as
fetchCompleteMsg. -/
def handlePullComplete (m : Model) (index : Nat) (err : Option String) :
    Option (Model × List Task) :=
  let m1 :=
    match m.statuses.get? index with
    | none => m
    | some s =>
      let s1 : RepoStatus :=
        { s with Rebasing := false,
                 LastMessage := match err with
                   | some e => "pull failed: " ++ e
                   | none => "synced" }
      { m with statuses := m.statuses.set index s1 }
  match m1.repos.get? index with
  | none => none
  | some _ => some (m1, [Task.refreshTask index])

/-- Model.Update, case pushCompleteMsg; same unguarded trailing refresh. -/
def handlePushComplete (m : Model) (index : Nat) (err : Option String) :
    Option (Model × List Task) :=
  let m1 :=
    match m.statuses.get? index with
    | none => m
    | some s =>
      let s1 : RepoStatus :=
        { s with Pushing := false,
                 LastMessage := match err with
                   | some e => "push failed: " ++ e
                   | none => "pushed" }
      { m with statuses := m.statuses.set index s1 }
  match m1.repos.get? index with
  | none => none
  | some _ => some (m1, [Task.refreshTask index])

/-- Model.Update, case upstreamSetMsg.  Writes the last message, always
chains a refresh, and resumes a fetch-and-pull exactly when the modal was
opened for a sync trigger and set-upstream succeeded. -/
def handleUpstreamSet (m : Model) (index : Nat) (err : Option String) :
    Option (Model × List Task) :=
  match m.statuses.get? index with
  | none => none
  | some s =>
    let s0 : RepoStatus :=
      { s with LastMessage := match err with
          | some e => "set upstream failed: " ++ e
          | none => "upstream set" }
    let m1 := { m with statuses := m.statuses.set index s0 }
    match m1.repos.get? index with
    | none => none
    | some _ =>
      if m1.modalAfterSetup && err.isNone then
        let s1 := nthStatus m1.statuses index
        some ({ m1 with statuses := m1.statuses.set index { s1 with Fetching := true } },
              [Task.refreshTask index, Task.syncTask index])
      else some (m1, [Task.refreshTask index])

/-- Model.handleModalKey, "enter" case for the set-upstream modal: confirm
the highlighted option.  An existing branch dispatches set-upstream; a
missing one marks the record pushing and dispatches push-with-upstream. -/
def handleModalKeyEnter (m : Model) : Option (Model × List Task) :=
  if m.modalType = ModalType.ModalSetUpstream && decide (0 < m.modalOptions.length) then
    match m.modalOptions.get? m.modalCursor with
    | none => none
    | some opt =>
      let m1 := { m with modalType := ModalType.ModalNone, modalOptions := [] }
      if opt.Exists then
        some (m1, [Task.setUpstreamTask m1.modalRepoIndex opt.Remote opt.Branch])
      else
        match m1.statuses.get? m1.modalRepoIndex with
        | none => none
        | some s =>
          some ({ m1 with statuses :=
                    m1.statuses.set m1.modalRepoIndex { s with Pushing := true } },
                [Task.pushWithUpstreamTask m1.modalRepoIndex opt.Remote opt.Branch])
  else some (m, [])

/-- The git primitives a scheduler task can invoke. -/
inductive GitCall where
  | fetchCall
  | pullCall
  | pushCall
  deriving Repr, DecidableEq

/-- The completion messages a task posts back to the event loop. -/
inductive Msg where
  | statusUpdated (index : Nat) (status : RepoStatus)
  | fetchComplete (index : Nat) (err : Option String)
  | pullComplete (index : Nat) (err : Option String)
  | pushComplete (index : Nat) (err : Option String)
  | upstreamSet (index : Nat) (err : Option String)
  deriving Repr, DecidableEq

/-- The body of Model.fetchAndPull's command from model.go, with the results
of the two git primitives supplied as oracles: first git.Fetch runs; on its
failure the fetch error itself is posted as the pull completion and git.Pull
is never invoked; otherwise git.Pull runs and its result is posted.  Returns
the sequence of primitives invoked and the posted message. -/
def fetchAndPull (index : Nat) (fetchRes : Option String) (pullRes : Option String) :
    List GitCall × Msg :=
  match fetchRes with
  | some e => ([GitCall.fetchCall], Msg.pullComplete index (some e))
  | none => ([GitCall.fetchCall, GitCall.pullCall], Msg.pullComplete index pullRes)

/-! Concrete configurations used to exercise the handlers. -/

/-- A single monitored repository. -/
def repoA : RepoConfig := { Path := "/tmp/alpha", Name := "alpha" }

/-- A clean record with upstream that is one commit ahead. -/
def statusAhead : RepoStatus := { Name := "alpha", HasUpstream := true, Ahead := 1 }

/-- A one-repository model whose record needs a push. -/
def singleRepoModel : Model := { repos := [repoA], statuses := [statusAhead] }

/-- singleRepoModel after the "f" key dispatched a fetch. -/
def fetchingModel : Model :=
  { repos := [repoA], statuses := [{ statusAhead with Fetching := true }] }

/-- fetchingModel after the "p" key additionally dispatched a push. -/
def bothFlagsModel : Model :=
  { repos := [repoA],
    statuses := [{ statusAhead with Fetching := true, Pushing := true }] }

/-- A record without upstream whose status probe failed. -/
def errStatus : RepoStatus :=
  { Name := "alpha", HasUpstream := false, Error := some "not a git repo" }

/-- A one-repository model around errStatus. -/
def errModel : Model := { repos := [repoA], statuses := [errStatus] }

/-- errModel after the "f" key dispatched a fetch despite the missing
upstream. -/
def errModelFetching : Model :=
  { repos := [repoA], statuses := [{ errStatus with Fetching := true }] }

/-- A healthy record that has no upstream configured. -/
def noUpStatus : RepoStatus := { Name := "alpha", Branch := "main" }

/-- A one-repository model around noUpStatus. -/
def noUpModel : Model := { repos := [repoA], statuses := [noUpStatus] }

/-- The remote conventionally named origin. -/
def originRemote : Remote := { Name := "origin", URL := "git@example.com:a" }

/-- A second remote named upstream. -/
def upstreamRemote : Remote := { Name := "upstream", URL := "git@example.com:b" }

/-- A model about to receive a discovery result for branch main. -/
def discModel : Model :=
  { repos := [repoA], statuses := [{ Name := "alpha", Branch := "main" }] }

/-- discModel after the discovery result with an exact upstream/main match
was applied. -/
def discResultModel : Model :=
  { discModel with
    modalType := ModalType.ModalSetUpstream,
    modalOptions := [{ Remote := "upstream", Branch := "main", Exists := true }] }

/-- A model whose set-upstream modal was opened by the sync trigger. -/
def syncModalModel : Model :=
  { repos := [repoA], statuses := [statusAhead], modalAfterSetup := true }

/-- syncModalModel after a successful upstreamSetMsg resumed the sync. -/
def syncSetModel : Model :=
  { repos := [repoA],
    statuses := [{ statusAhead with LastMessage := "upstream set", Fetching := true }],
    modalAfterSetup := true }

/-- A set-upstream modal highlighting an existing remote branch. -/
def modalTrueModel : Model :=
  { repos := [repoA], statuses := [statusAhead],
    modalType := ModalType.ModalSetUpstream,
    modalOptions := [{ Remote := "origin", Branch := "main", Exists := true }] }

/-- modalTrueModel after the operator confirmed the option. -/
def modalTrueResult : Model :=
  { modalTrueModel with modalType := ModalType.ModalNone, modalOptions := [] }

/-- A set-upstream modal highlighting a push-to-create option. -/
def modalFalseModel : Model :=
  { repos := [repoA], statuses := [statusAhead],
    modalType := ModalType.ModalSetUpstream,
    modalOptions := [{ Remote := "origin", Branch := "main", Exists := false }] }

/-- modalFalseModel after the operator confirmed the option. -/
def modalFalseResult : Model :=
  { modalFalseModel with
    modalType := ModalType.ModalNone,
    modalOptions := [],
    statuses := [{ statusAhead with Pushing := true }] }

/-- A freshly probed status carrying new sync facts. -/
def freshStatus : RepoStatus :=
  { Name := "alpha", Branch := "main", HasUpstream := true, Behind := 2 }

/-- Four records covering the grouped ordering classes. -/
def demoStatuses : List RepoStatus :=
  [{ Name := "alpha", HasUpstream := true },
   { Name := "bravo", HasUpstream := true, Ahead := 3 },
   { Name := "charlie", HasUpstream := true, Behind := 2 },
   { Name := "delta", Error := some "bad" }]

/-! Helper lemmas. -/

theorem nthStatus_set_self {l : List RepoStatus} {i : Nat} {s : RepoStatus}
    (h : i < l.length) : nthStatus (l.set i s) i = s := by
  simp [nthStatus, List.getD_eq_getElem?_getD, List.getElem?_set_self',
    List.getElem?_eq_getElem h]

theorem get?_set_self {l : List RepoStatus} {i : Nat} {s : RepoStatus}
    (h : i < l.length) : (l.set i s).get? i = some s := by
  simp [List.get?_eq_getElem?, List.getElem?_set_self', List.getElem?_eq_getElem h]

theorem nthStatus_of_get? {l : List RepoStatus} {i : Nat} {s : RepoStatus}
    (h : l.get? i = some s) : nthStatus l i = s := by
  rw [List.get?_eq_getElem?] at h
  simp [nthStatus, List.getD_eq_getElem?_getD, h]

theorem handleStatusUpdated_statuses (m : Model) (index : Nat) (newStatus old : RepoStatus)
    (hget : m.statuses.get? index = some old) :
    (handleStatusUpdated m index newStatus).1.statuses =
      m.statuses.set index
        { newStatus with Fetching := old.Fetching, Rebasing := old.Rebasing,
                         Pushing := old.Pushing, LastMessage := old.LastMessage } := by
  have hget' : m.statuses[index]? = some old := by
    rw [← List.get?_eq_getElem?]; exact hget
  simp [handleStatusUpdated, hget']

theorem displayOrder_perm (statuses : List RepoStatus) (grouped : Bool) :
    (displayOrder statuses grouped).Perm (List.range statuses.length) := by
  cases grouped with
  | false => simp [displayOrder]
  | true =>
    simpa [displayOrder] using
      List.perm_insertionSort (displayLe statuses) (List.range statuses.length)

/-- C2: the sync composition Model.fetchAndPull invokes fetch first; when
fetch fails, pull is never invoked and the posted result carries exactly the
fetch error; otherwise pull runs after fetch and its own result is posted. -/
theorem sync_fetch_first_shortcircuit (index : Nat) (fetchRes pullRes : Option String) :
    (fetchAndPull index fetchRes pullRes).1.head? = some GitCall.fetchCall ∧
    (∀ e, fetchRes = some e →
      GitCall.pullCall ∉ (fetchAndPull index fetchRes pullRes).1 ∧
      (fetchAndPull index fetchRes pullRes).2 = Msg.pullComplete index (some e)) ∧
    (fetchRes = none →
      (fetchAndPull index fetchRes pullRes).1 = [GitCall.fetchCall, GitCall.pullCall] ∧
      (fetchAndPull index fetchRes pullRes).2 = Msg.pullComplete index pullRes) := by
  cases fetchRes <;> simp [fetchAndPull]

/-- C2 witness: a failing fetch short-circuits a concrete sync. -/
theorem sync_fetch_first_shortcircuit_witness :
    GitCall.pullCall ∉ (fetchAndPull 0 (some "offline") none).1 ∧
    (fetchAndPull 0 (some "offline") none).2 = Msg.pullComplete 0 (some "offline") :=
  (sync_fetch_first_shortcircuit 0 (some "offline") none).2.1 "offline" rfl

/-- C7: contrary to the spec, a completion message with an out-of-bounds
repository index is not dropped.  The fetch, pull and push completion
handlers guard only the store write and then index the repo slice
unconditionally to build the follow-up refresh, and the remotesLoaded and
upstreamSet handlers touch the status slice with no bounds check at all;
each case is a runtime panic, modelled as `none`. -/
theorem out_of_bounds_completion_not_dropped :
    handleFetchComplete singleRepoModel 1 none = none ∧
    handlePullComplete singleRepoModel 1 none = none ∧
    handlePushComplete singleRepoModel 1 none = none ∧
    handleRemotesLoaded singleRepoModel 1 [originRemote] [] = none ∧
    handleUpstreamSet singleRepoModel 1 none = none := by
  decide

/-- C1 counterexample: from a clean record that is one commit ahead, "f"
starts a fetch, and while that fetch is outstanding "p" is not refused: it
starts a push, leaving both Fetching and Pushing true on the same record. -/
theorem transient_flag_exclusivity_counterexample :
    handleKeyF singleRepoModel = some (fetchingModel, [Task.fetchTask 0]) ∧
    handleKeyP fetchingModel = some (bothFlagsModel, [Task.pushTask 0]) ∧
    (nthStatus bothFlagsModel.statuses 0).Fetching = true ∧
    (nthStatus bothFlagsModel.statuses 0).Pushing = true := by
  decide

/-- C1 (amended): the Event Router refuses only an operation of the same
kind: "f" is dropped when Fetching is set, "s" when Fetching or Rebasing is
set, and "p" when Pushing is set.  It does not refuse across kinds, so two
transient flags can be true at once (see the counterexample). -/
theorem router_refuses_same_kind_operation (m : Model) (idx : Nat) (status : RepoStatus)
    (hsel : selectedIndex m = some idx) (hget : m.statuses.get? idx = some status) :
    (status.Fetching = true → handleKeyF m = some (m, [])) ∧
    (status.Fetching = true ∨ status.Rebasing = true → handleKeyS m = some (m, [])) ∧
    (status.Pushing = true → handleKeyP m = some (m, [])) := by
  have hget' : m.statuses[idx]? = some status := by
    rw [← List.get?_eq_getElem?]; exact hget
  refine ⟨fun h => ?_, fun h => ?_, fun h => ?_⟩
  · simp [handleKeyF, hsel, hget', h]
  · have hb : (status.Fetching || status.Rebasing) = true := by
      cases h with
      | inl h => simp [h]
      | inr h => simp [h]
    simp [handleKeyS, hsel, hget', hb]
  · simp [handleKeyP, hsel, hget', h]

/-- C1 witness: re-issuing "f" while the record is already fetching is a
no-op. -/
theorem router_refuses_same_kind_operation_witness :
    handleKeyF fetchingModel = some (fetchingModel, []) :=
  (router_refuses_same_kind_operation fetchingModel 0
    { statusAhead with Fetching := true } (by decide) (by decide)).1 rfl

/-- C4 counterexample: on a record with HasUpstream = false whose Error is
set, the "f" key does not enter the resolution state machine: it dispatches
the fetch primitive directly. -/
theorem no_upstream_always_resolution_counterexample :
    errStatus.HasUpstream = false ∧
    handleKeyF errModel = some (errModelFetching, [Task.fetchTask 0]) ∧
    errModelFetching.modalType = ModalType.ModalNone ∧
    Task.loadRemotesTask 0 ∉ [Task.fetchTask 0] := by
  decide

/-- C4 (amended): only for records with HasUpstream = false AND Error =
none does a fetch, sync or push trigger avoid the primitives: it either is
dropped by the per-operation busy guard or enters the Upstream Resolution
State Machine, whose only dispatched task is remote discovery.  With an
error set, fetch and sync dispatch their primitive directly. -/
theorem no_upstream_triggers_route_through_resolution (m : Model) (idx : Nat)
    (status : RepoStatus) (hsel : selectedIndex m = some idx)
    (hget : m.statuses.get? idx = some status)
    (hup : status.HasUpstream = false) (herr : status.Error = none) :
    ((handleKeyF m = some (m, []) ∧ status.Fetching = true) ∨
      handleKeyF m = some (showUpstreamModal m idx false)) ∧
    ((handleKeyS m = some (m, []) ∧ (status.Fetching = true ∨ status.Rebasing = true)) ∨
      handleKeyS m = some (showUpstreamModal m idx true)) ∧
    ((handleKeyP m = some (m, []) ∧ status.Pushing = true) ∨
      handleKeyP m = some (showUpstreamModal m idx false)) ∧
    (showUpstreamModal m idx false).2 = [Task.loadRemotesTask idx] ∧
    (showUpstreamModal m idx true).2 = [Task.loadRemotesTask idx] := by
  have hget' : m.statuses[idx]? = some status := by
    rw [← List.get?_eq_getElem?]; exact hget
  refine ⟨?_, ?_, ?_, rfl, rfl⟩
  · cases hF : status.Fetching with
    | true => exact Or.inl ⟨by simp [handleKeyF, hsel, hget', hF], rfl⟩
    | false => exact Or.inr (by simp [handleKeyF, hsel, hget', hF, hup, herr])
  · cases hF : status.Fetching with
    | true =>
      exact Or.inl ⟨by simp [handleKeyS, hsel, hget', hF], Or.inl rfl⟩
    | false =>
      cases hR : status.Rebasing with
      | true => exact Or.inl ⟨by simp [handleKeyS, hsel, hget', hF, hR], Or.inr rfl⟩
      | false => exact Or.inr (by simp [handleKeyS, hsel, hget', hF, hR, hup, herr])
  · cases hP : status.Pushing with
    | true => exact Or.inl ⟨by simp [handleKeyP, hsel, hget', hP], rfl⟩
    | false => exact Or.inr (by simp [handleKeyP, hsel, hget', hP, hup, herr])

/-- C4 witness: on a healthy upstream-less record, all three triggers enter
the resolution machine. -/
theorem no_upstream_triggers_route_through_resolution_witness :
    ((handleKeyF noUpModel = some (noUpModel, []) ∧ noUpStatus.Fetching = true) ∨
      handleKeyF noUpModel = some (showUpstreamModal noUpModel 0 false)) ∧
    ((handleKeyS noUpModel = some (noUpModel, []) ∧
        (noUpStatus.Fetching = true ∨ noUpStatus.Rebasing = true)) ∨
      handleKeyS noUpModel = some (showUpstreamModal noUpModel 0 true)) ∧
    ((handleKeyP noUpModel = some (noUpModel, []) ∧ noUpStatus.Pushing = true) ∨
      handleKeyP noUpModel = some (showUpstreamModal noUpModel 0 false)) ∧
    (showUpstreamModal noUpModel 0 false).2 = [Task.loadRemotesTask 0] ∧
    (showUpstreamModal noUpModel 0 true).2 = [Task.loadRemotesTask 0] :=
  no_upstream_triggers_route_through_resolution noUpModel 0 noUpStatus
    (by decide) (by decide) (by decide) (by decide)

/-- C6: applying a statusUpdatedMsg at an in-bounds index installs the new
sync facts while keeping the old record's three transient flags and last
message, and applying the same refresh again changes nothing further. -/
theorem refresh_preserves_transient_flags (m : Model) (index : Nat)
    (newStatus old : RepoStatus) (hget : m.statuses.get? index = some old) :
    nthStatus ((handleStatusUpdated m index newStatus).1).statuses index =
      { newStatus with Fetching := old.Fetching, Rebasing := old.Rebasing,
                       Pushing := old.Pushing, LastMessage := old.LastMessage } ∧
    (nthStatus ((handleStatusUpdated m index newStatus).1).statuses index).Fetching
      = old.Fetching ∧
    (nthStatus ((handleStatusUpdated m index newStatus).1).statuses index).Rebasing
      = old.Rebasing ∧
    (nthStatus ((handleStatusUpdated m index newStatus).1).statuses index).Pushing
      = old.Pushing ∧
    (nthStatus ((handleStatusUpdated m index newStatus).1).statuses index).LastMessage
      = old.LastMessage ∧
    (nthStatus ((handleStatusUpdated m index newStatus).1).statuses index).Ahead
      = newStatus.Ahead ∧
    (nthStatus ((handleStatusUpdated m index newStatus).1).statuses index).Behind
      = newStatus.Behind ∧
    (nthStatus ((handleStatusUpdated m index newStatus).1).statuses index).Branch
      = newStatus.Branch ∧
    (nthStatus ((handleStatusUpdated m index newStatus).1).statuses index).HasUpstream
      = newStatus.HasUpstream ∧
    (nthStatus ((handleStatusUpdated m index newStatus).1).statuses index).Error
      = newStatus.Error ∧
    (handleStatusUpdated (handleStatusUpdated m index newStatus).1 index newStatus).1.statuses
      = ((handleStatusUpdated m index newStatus).1).statuses := by
  have hlen : index < m.statuses.length := by
    obtain ⟨hl, -⟩ := List.get?_eq_some.mp hget
    exact hl
  have h1 := handleStatusUpdated_statuses m index newStatus old hget
  have hmid : nthStatus ((handleStatusUpdated m index newStatus).1).statuses index =
      { newStatus with Fetching := old.Fetching, Rebasing := old.Rebasing,
                       Pushing := old.Pushing, LastMessage := old.LastMessage } := by
    rw [h1]; exact nthStatus_set_self hlen
  have hget2 : ((handleStatusUpdated m index newStatus).1).statuses.get? index =
      some { newStatus with Fetching := old.Fetching, Rebasing := old.Rebasing,
                            Pushing := old.Pushing, LastMessage := old.LastMessage } := by
    rw [h1]; exact get?_set_self hlen
  have hagain :
      (handleStatusUpdated (handleStatusUpdated m index newStatus).1 index
        newStatus).1.statuses
      = ((handleStatusUpdated m index newStatus).1).statuses := by
    have hstep := handleStatusUpdated_statuses (handleStatusUpdated m index newStatus).1
      index newStatus _ hget2
    dsimp only at hstep
    rw [hstep, h1, List.set_set, ← h1]
  exact ⟨hmid, by rw [hmid], by rw [hmid], by rw [hmid], by rw [hmid], by rw [hmid],
    by rw [hmid], by rw [hmid], by rw [hmid], by rw [hmid], hagain⟩

/-- C6 witness: a concrete refresh replaces the sync facts of the selected
record but not its flags, twice over. -/
theorem refresh_preserves_transient_flags_witness :
    nthStatus ((handleStatusUpdated singleRepoModel 0 freshStatus).1).statuses 0 =
      { freshStatus with Fetching := statusAhead.Fetching,
                         Rebasing := statusAhead.Rebasing,
                         Pushing := statusAhead.Pushing,
                         LastMessage := statusAhead.LastMessage } ∧
    (handleStatusUpdated (handleStatusUpdated singleRepoModel 0 freshStatus).1 0
        freshStatus).1.statuses
      = ((handleStatusUpdated singleRepoModel 0 freshStatus).1).statuses :=
  ⟨(refresh_preserves_transient_flags singleRepoModel 0 freshStatus statusAhead rfl).1,
   (refresh_preserves_transient_flags singleRepoModel 0 freshStatus statusAhead
      rfl).2.2.2.2.2.2.2.2.2.2⟩

/-- C5: after an upstreamSetMsg, exactly one sync-style (fetch-then-pull)
task is dispatched precisely when the modal was opened for a sync trigger
(modalAfterSetup, set to true only by the "s" key's showUpstreamModal call)
and set-upstream succeeded; otherwise the only dispatched task is the status
refresh. -/
theorem resume_sync_only_after_sync_trigger (m : Model) (index : Nat) (err : Option String)
    (s : RepoStatus) (rc : RepoConfig)
    (hget : m.statuses.get? index = some s) (hrepo : m.repos.get? index = some rc)
    (m2 : Model) (tasks : List Task)
    (hrun : handleUpstreamSet m index err = some (m2, tasks)) :
    tasks.count (Task.syncTask index) =
      (if m.modalAfterSetup = true ∧ err = none then 1 else 0) ∧
    tasks.filter (fun t => t != Task.syncTask index) = [Task.refreshTask index] ∧
    (∀ m0 i b, ((showUpstreamModal m0 i b).1.modalAfterSetup = b)) := by
  have hget' : m.statuses[index]? = some s := by
    rw [← List.get?_eq_getElem?]; exact hget
  have hrepo' : m.repos[index]? = some rc := by
    rw [← List.get?_eq_getElem?]; exact hrepo
  refine ⟨?_, ?_, fun m0 i b => rfl⟩ <;>
    cases hA : m.modalAfterSetup <;> cases err <;>
      simp [handleUpstreamSet, hget', hrepo', hA] at hrun <;>
      obtain ⟨hm2, htasks⟩ := hrun <;> subst htasks <;>
      simp [hA, List.count_cons]

/-- C5 witness: a successful set-upstream after a sync trigger resumes
exactly one sync task beside the refresh. -/
theorem resume_sync_only_after_sync_trigger_witness :
    [Task.refreshTask 0, Task.syncTask 0].count (Task.syncTask 0) =
      (if syncModalModel.modalAfterSetup = true ∧ (none : Option String) = none
       then 1 else 0) ∧
    [Task.refreshTask 0, Task.syncTask 0].filter (fun t => t != Task.syncTask 0) =
      [Task.refreshTask 0] :=
  ⟨(resume_sync_only_after_sync_trigger syncModalModel 0 none statusAhead repoA
      rfl rfl syncSetModel [Task.refreshTask 0, Task.syncTask 0] (by decide)).1,
   (resume_sync_only_after_sync_trigger syncModalModel 0 none statusAhead repoA
      rfl rfl syncSetModel [Task.refreshTask 0, Task.syncTask 0] (by decide)).2.1⟩

/-- C9: confirming a set-upstream modal option with Exists = true dispatches
the set-upstream task and leaves the status store untouched (so no transient
flag is newly set while that task is outstanding), whereas an option with
Exists = false sets the record's Pushing flag before dispatching
push-with-upstream. -/
theorem modal_confirm_transient_flags (m : Model) (opt : UpstreamOption) (s : RepoStatus)
    (m2 : Model) (tasks : List Task)
    (hmt : m.modalType = ModalType.ModalSetUpstream)
    (hopt : m.modalOptions.get? m.modalCursor = some opt)
    (hs : m.statuses.get? m.modalRepoIndex = some s)
    (hrun : handleModalKeyEnter m = some (m2, tasks)) :
    (opt.Exists = true →
      tasks = [Task.setUpstreamTask m.modalRepoIndex opt.Remote opt.Branch] ∧
      m2.statuses = m.statuses ∧
      (nthStatus m2.statuses m.modalRepoIndex).Fetching = s.Fetching ∧
      (nthStatus m2.statuses m.modalRepoIndex).Rebasing = s.Rebasing ∧
      (nthStatus m2.statuses m.modalRepoIndex).Pushing = s.Pushing) ∧
    (opt.Exists = false →
      tasks = [Task.pushWithUpstreamTask m.modalRepoIndex opt.Remote opt.Branch] ∧
      nthStatus m2.statuses m.modalRepoIndex = { s with Pushing := true }) := by
  have hclen : m.modalCursor < m.modalOptions.length := by
    obtain ⟨hl, -⟩ := List.get?_eq_some.mp hopt
    exact hl
  have hpos : 0 < m.modalOptions.length := Nat.lt_of_le_of_lt (Nat.zero_le _) hclen
  have hslen : m.modalRepoIndex < m.statuses.length := by
    obtain ⟨hl, -⟩ := List.get?_eq_some.mp hs
    exact hl
  have hopt' : m.modalOptions[m.modalCursor]? = some opt := by
    rw [← List.get?_eq_getElem?]; exact hopt
  have hs' : m.statuses[m.modalRepoIndex]? = some s := by
    rw [← List.get?_eq_getElem?]; exact hs
  cases hex : opt.Exists with
  | true =>
    simp [handleModalKeyEnter, hmt, hpos, hopt', hex] at hrun
    obtain ⟨hm2, htasks⟩ := hrun
    subst htasks
    have hst : m2.statuses = m.statuses := by rw [← hm2]
    have hrec : nthStatus m2.statuses m.modalRepoIndex = s := by
      rw [hst]; exact nthStatus_of_get? hs
    exact ⟨fun _ => ⟨rfl, hst, by rw [hrec], by rw [hrec], by rw [hrec]⟩,
           fun hfalse => Bool.noConfusion hfalse⟩
  | false =>
    simp [handleModalKeyEnter, hmt, hpos, hopt', hex, hs'] at hrun
    obtain ⟨hm2, htasks⟩ := hrun
    subst htasks
    have hrec : nthStatus m2.statuses m.modalRepoIndex = { s with Pushing := true } := by
      rw [← hm2]
      exact nthStatus_set_self hslen
    exact ⟨fun htrue => Bool.noConfusion htrue, fun _ => ⟨rfl, hrec⟩⟩

/-- C9 witness: concrete confirmations of an existing remote branch (store
untouched) and a missing one (Pushing set). -/
theorem modal_confirm_transient_flags_witness :
    ([Task.setUpstreamTask 0 "origin" "main"] =
        [Task.setUpstreamTask 0 "origin" "main"] ∧
      modalTrueResult.statuses = modalTrueModel.statuses ∧
      (nthStatus modalTrueResult.statuses 0).Fetching = statusAhead.Fetching ∧
      (nthStatus modalTrueResult.statuses 0).Rebasing = statusAhead.Rebasing ∧
      (nthStatus modalTrueResult.statuses 0).Pushing = statusAhead.Pushing) ∧
    ([Task.pushWithUpstreamTask 0 "origin" "main"] =
        [Task.pushWithUpstreamTask 0 "origin" "main"] ∧
      nthStatus modalFalseResult.statuses 0 = { statusAhead with Pushing := true }) :=
  ⟨(modal_confirm_transient_flags modalTrueModel
      { Remote := "origin", Branch := "main", Exists := true } statusAhead
      modalTrueResult [Task.setUpstreamTask 0 "origin" "main"]
      rfl rfl rfl (by decide)).1 rfl,
   (modal_confirm_transient_flags modalFalseModel
      { Remote := "origin", Branch := "main", Exists := false } statusAhead
      modalFalseResult [Task.pushWithUpstreamTask 0 "origin" "main"]
      rfl rfl rfl (by decide)).2 rfl⟩

/-! Option-list helpers for the discovery result. -/

theorem buildUpstreamOptions_matches (branch : String) (remotes : List Remote)
    (branches : List RemoteBranch) (h : branches ≠ []) :
    buildUpstreamOptions branch remotes branches =
      branches.map (fun rb =>
        { Remote := rb.Remote, Branch := rb.Branch, Exists := true }) := by
  cases branches with
  | nil => cases h rfl
  | cons a l => rfl

theorem buildUpstreamOptions_empty (branch : String) (remotes : List Remote) :
    buildUpstreamOptions branch remotes [] =
      remotes.map (fun r => { Remote := r.Name, Branch := branch, Exists := false }) := rfl

theorem buildUpstreamOptions_uniform (branch : String) (remotes : List Remote)
    (branches : List RemoteBranch) :
    (∀ o ∈ buildUpstreamOptions branch remotes branches, o.Exists = true) ∨
    (∀ o ∈ buildUpstreamOptions branch remotes branches, o.Exists = false) := by
  cases branches with
  | nil =>
    right
    intro o ho
    rw [buildUpstreamOptions_empty] at ho
    obtain ⟨r, -, rfl⟩ := List.mem_map.mp ho
    rfl
  | cons a l =>
    left
    intro o ho
    rw [buildUpstreamOptions_matches branch remotes (a :: l) (by simp)] at ho
    obtain ⟨rb, -, rfl⟩ := List.mem_map.mp ho
    rfl

theorem listRemoteBranches_of_ne_empty (allBranches : List RemoteBranch) (branch : String)
    (hb : branch ≠ "") :
    listRemoteBranches allBranches branch
      = allBranches.filter (fun rb => rb.Branch == branch) := by
  unfold listRemoteBranches
  refine List.filter_congr fun rb _ => ?_
  simp [hb]

/-- C3: for a discovery result over a nonempty remote list and a nonempty
current branch name, the stored option list is exactly the exact-name
matches with Exists = true when any exist, otherwise exactly one Exists =
false entry per remote carrying the current branch name; the list never
mixes the two kinds. -/
theorem discovery_option_list_priority (m : Model) (index : Nat)
    (remotes : List Remote) (allBranches : List RemoteBranch) (s : RepoStatus)
    (m2 : Model) (tasks : List Task)
    (hget : m.statuses.get? index = some s) (hb : s.Branch ≠ "") (hr : remotes ≠ [])
    (hrun : handleRemotesLoaded m index remotes (listRemoteBranches allBranches s.Branch)
              = some (m2, tasks)) :
    tasks = [] ∧
    m2.modalType = ModalType.ModalSetUpstream ∧
    (allBranches.filter (fun rb => rb.Branch == s.Branch) ≠ [] →
      m2.modalOptions = (allBranches.filter (fun rb => rb.Branch == s.Branch)).map
        (fun rb => { Remote := rb.Remote, Branch := rb.Branch, Exists := true })) ∧
    (allBranches.filter (fun rb => rb.Branch == s.Branch) = [] →
      m2.modalOptions = remotes.map
        (fun r => { Remote := r.Name, Branch := s.Branch, Exists := false })) ∧
    ((∀ o ∈ m2.modalOptions, o.Exists = true) ∨
      (∀ o ∈ m2.modalOptions, o.Exists = false)) := by
  have hlen : index < m.statuses.length := by
    obtain ⟨hl, -⟩ := List.get?_eq_some.mp hget
    exact hl
  have hget' : m.statuses[index]? = some s := by
    rw [← List.get?_eq_getElem?]; exact hget
  have hrem : remotes.isEmpty = false := by
    cases remotes with
    | nil => cases hr rfl
    | cons a l => rfl
  rw [listRemoteBranches_of_ne_empty allBranches s.Branch hb] at hrun
  have hbr : nthStatus (m.statuses.set index { s with Fetching := false }) index =
      { s with Fetching := false } := nthStatus_set_self hlen
  simp [handleRemotesLoaded, hget', hrem, hbr] at hrun
  obtain ⟨hm2, htasks⟩ := hrun
  subst htasks
  have hopts : m2.modalOptions =
      buildUpstreamOptions s.Branch remotes
        (allBranches.filter (fun rb => rb.Branch == s.Branch)) := by
    rw [← hm2]
  have hmt : m2.modalType = ModalType.ModalSetUpstream := by
    rw [← hm2]
  refine ⟨rfl, hmt, ?_, ?_, ?_⟩
  · intro hne
    rw [hopts, buildUpstreamOptions_matches _ _ _ hne]
  · intro heq
    rw [hopts, heq, buildUpstreamOptions_empty]
  · rw [hopts]
    exact buildUpstreamOptions_uniform _ _ _

/-- C3 witness: with remotes origin and upstream and only upstream/main
matching branch main, the option list is exactly the single tracking
option. -/
theorem discovery_option_list_priority_witness :
    ([({ Remote := "upstream", Branch := "main" } : RemoteBranch)].filter
        (fun rb => rb.Branch == "main") ≠ []) ∧
    discResultModel.modalOptions =
      ([({ Remote := "upstream", Branch := "main" } : RemoteBranch)].filter
          (fun rb => rb.Branch == "main")).map
        (fun rb => { Remote := rb.Remote, Branch := rb.Branch, Exists := true }) :=
  ⟨by decide,
   (discovery_option_list_priority discModel 0 [originRemote, upstreamRemote]
      [{ Remote := "upstream", Branch := "main" }] { Name := "alpha", Branch := "main" }
      discResultModel [] rfl (by decide) (by decide) (by decide)).2.2.1 (by decide)⟩

/-- C8: displayOrder returns the identity order when not grouped; when
grouped it returns a permutation of the indices sorted (stably, via the
insertion-sort model of the sort.Slice call) by the comparator whose
priority classes are error (0) < behind (1) < ahead (2) < synced (3) <
no-upstream (4), with ties broken by name ascending.  The store itself is
never touched: displayOrder is a pure function of the status list. -/
theorem grouped_display_ordering (statuses : List RepoStatus) :
    displayOrder statuses false = List.range statuses.length ∧
    List.Sorted (displayLe statuses) (displayOrder statuses true) ∧
    (displayOrder statuses true).Perm (List.range statuses.length) ∧
    (∀ s : RepoStatus, s.Error.isSome = true → statusPriority s = 0) ∧
    (∀ s : RepoStatus, s.NeedsPull = true → statusPriority s = 1) ∧
    (∀ s : RepoStatus, s.NeedsPull = false → s.NeedsPush = true → statusPriority s = 2) ∧
    (∀ s : RepoStatus, s.IsSynced = true → statusPriority s = 3) ∧
    (∀ s : RepoStatus, s.Error = none → s.HasUpstream = false → statusPriority s = 4) := by
  refine ⟨by simp [displayOrder], ?_, displayOrder_perm statuses true, ?_, ?_, ?_, ?_, ?_⟩
  · simpa [displayOrder] using
      List.sorted_insertionSort (displayLe statuses) (List.range statuses.length)
  · intro s h
    simp [statusPriority, h]
  · intro s h
    have h' := h
    simp [RepoStatus.NeedsPull] at h'
    simp [statusPriority, h, h'.2]
  · intro s h1 h2
    have h' := h2
    simp [RepoStatus.NeedsPush] at h'
    simp [statusPriority, h1, h2, h'.2]
  · intro s h
    have h' := h
    simp [RepoStatus.IsSynced] at h'
    simp [statusPriority, RepoStatus.NeedsPull, RepoStatus.NeedsPush, h,
      h'.1.1.1, h'.1.1.2, h'.1.2, h'.2]
  · intro s h1 h2
    simp [statusPriority, RepoStatus.NeedsPull, RepoStatus.NeedsPush,
      RepoStatus.IsSynced, h1, h2]

/-- C8 witness: the four demo records land in the documented grouped order
and in configuration order when ungrouped. -/
theorem grouped_display_ordering_witness :
    displayOrder demoStatuses false = List.range demoStatuses.length ∧
    displayOrder demoStatuses true = [3, 2, 1, 0] ∧
    statusPriority { Name := "delta", Error := some "bad" } = 0 ∧
    statusPriority { Name := "charlie", HasUpstream := true, Behind := 2 } = 1 ∧
    statusPriority { Name := "bravo", HasUpstream := true, Ahead := 3 } = 2 ∧
    statusPriority { Name := "alpha", HasUpstream := true } = 3 ∧
    statusPriority { Name := "echo" } = 4 :=
  ⟨(grouped_display_ordering demoStatuses).1, by decide,
   (grouped_display_ordering demoStatuses).2.2.2.1 _ (by decide),
   (grouped_display_ordering demoStatuses).2.2.2.2.1 _ (by decide),
   (grouped_display_ordering demoStatuses).2.2.2.2.2.1 _ (by decide) (by decide),
   (grouped_display_ordering demoStatuses).2.2.2.2.2.2.1 _ (by decide),
   (grouped_display_ordering demoStatuses).2.2.2.2.2.2.2 _ (by decide) (by decide)⟩

/-- C10: displayOrder is always a permutation of the indices 0..n-1 for
either grouping mode, so the cursor resolves through it to a valid
repository index whenever the cursor is below n. -/
theorem display_order_is_permutation (m : Model) (i : Nat) :
    (displayOrder m.statuses m.grouped).Perm (List.range m.statuses.length) ∧
    (m.cursor < m.statuses.length → (selectedIndex m).isSome = true) ∧
    (selectedIndex m = some i → i < m.statuses.length) := by
  have hperm := displayOrder_perm m.statuses m.grouped
  have hlen : (displayOrder m.statuses m.grouped).length = m.statuses.length := by
    simpa using hperm.length_eq
  refine ⟨hperm, ?_, ?_⟩
  · intro hc
    have hc' : m.cursor < (displayOrder m.statuses m.grouped).length := by
      rw [hlen]; exact hc
    unfold selectedIndex
    rw [List.get?_eq_get hc']
    rfl
  · intro hsel
    unfold selectedIndex at hsel
    obtain ⟨hlt, heq⟩ := List.get?_eq_some.mp hsel
    have hmem : i ∈ displayOrder m.statuses m.grouped := heq ▸ List.get_mem _ _ _
    exact List.mem_range.mp (hperm.mem_iff.mp hmem)

/-- C10 witness: on a concrete one-repository model the order is a
permutation and the cursor resolves to the only valid index. -/
theorem display_order_is_permutation_witness :
    (displayOrder singleRepoModel.statuses singleRepoModel.grouped).Perm
      (List.range singleRepoModel.statuses.length) ∧
    (selectedIndex singleRepoModel).isSome = true ∧
    0 < singleRepoModel.statuses.length :=
  ⟨(display_order_is_permutation singleRepoModel 0).1,
   (display_order_is_permutation singleRepoModel 0).2.1 (by decide),
   (display_order_is_permutation singleRepoModel 0).2.2 (by decide)⟩

end GitPulse
